import Mathlib

/-!
# norman `pkg/parse`: request normalisation

A shallow embedding of `src/pkg/parse/parse.go` and the properties of its
natural-language specification.

Modelling conventions.

* Go strings are modelled by `String`, i.e. as sequences of Unicode code
  points (well-formed UTF-8).
* A Go map `map[string][]string` (`url.Values`, `http.Header`) is an
  association list read at the first entry of a key; a nil map is `none`
  where the source tests for nil.
* A pointer to the operation descriptor is an address (`Ptr`); the descriptor
  itself is passed and returned as a value.
* Collaborators that live outside `parse.go` (browser detection, link-builder
  factory, method validator, the Unicode case table of the Go standard
  library) are fields of `Env`; they and the URL-parsing strategy are functions
  of their arguments and do not write to the descriptor. The collaborators of
  `Body` (form parsing of the Go library, `types.ToAPI`, `ReadBody`) are fields
  of `BodyEnv`.
-/

namespace Norman

/-! ## Standard-library strings -/

/-- Go `unicode.IsSpace`: the Latin-1 switch followed by the `White_Space`
range table for larger runes. -/
def unicodeIsSpace (r : Char) : Bool :=
  let n := r.toNat
  if n ≤ 0xFF then
    n == 0x09 || n == 0x0A || n == 0x0B || n == 0x0C || n == 0x0D || n == 0x20
      || n == 0x85 || n == 0xA0
  else
    n == 0x1680 || (0x2000 ≤ n && n ≤ 0x200A) || n == 0x2028 || n == 0x2029
      || n == 0x202F || n == 0x205F || n == 0x3000

/-- Go `unicode.ToLower`: ASCII runes are handled inline (`A`..`Z` are shifted
by `'a' - 'A'`), every other rune goes through the case table `tbl`
(`unicode.To(unicode.LowerCase, r)`). -/
def unicodeToLower (tbl : Char → Char) (r : Char) : Char :=
  if r.toNat ≤ 0x7F then
    if 0x41 ≤ r.toNat ∧ r.toNat ≤ 0x5A then Char.ofNat (r.toNat + 0x20) else r
  else tbl r

/-- Go `strings.ToLower`: every rune is mapped through `unicode.ToLower` (the
ASCII fast path of the library computes the same string). -/
def stringsToLower (tbl : Char → Char) (s : String) : String :=
  ⟨s.data.map (unicodeToLower tbl)⟩

/-- Go `strings.TrimSpace`: the leading and the trailing runes satisfying
`unicode.IsSpace` are removed. -/
def stringsTrimSpace (s : String) : String :=
  ⟨((s.data.dropWhile unicodeIsSpace).reverse.dropWhile unicodeIsSpace).reverse⟩

/-- Go `strings.HasPrefix` on rune lists. -/
def hasPrefixChars : List Char → List Char → Bool
  | _, [] => true
  | [], _ :: _ => false
  | c :: cs, p :: ps => c == p && hasPrefixChars cs ps

/-- Go `strings.Contains` on rune lists: `sub` starts at some position of `s`. -/
def containsChars : List Char → List Char → Bool
  | [], sub => hasPrefixChars [] sub
  | c :: cs, sub => hasPrefixChars (c :: cs) sub || containsChars cs sub

/-- Go `strings.Contains`. -/
def stringsContains (s sub : String) : Bool :=
  containsChars s.data sub.data

/-! ## Requests, contexts and the operation descriptor -/

/-- A Go `error` value (nil is `none : Option GoError`). -/
structure GoError where
  text : String
deriving DecidableEq, Repr

/-- A Go `map[string][]string` (`url.Values`, `http.Header`). -/
abbrev Values := List (String × List String)

/-- Go `url.Values.Get` (and `http.Header.Get` at a canonical key): the first
value stored under `key`, or the empty string. -/
def Values.Get (v : Values) (key : String) : String :=
  match v.lookup key with
  | some (x :: _) => x
  | _ => ""

/-- The address of an operation descriptor (`*types.APIRequest`). -/
abbrev Ptr := Nat

/-- Keys of context values; `apiOpKey` is the unexported `apiOpKey{}`. -/
inductive CtxKey where
  | apiOpKey
  | other (n : Nat)
deriving DecidableEq, Repr

/-- Values stored in a context, tagged with their dynamic type. -/
inductive CtxVal where
  | apiRequest (p : Ptr)
  | other (n : Nat)
deriving DecidableEq, Repr

/-- A `context.Context`: its value bindings, innermost first. -/
structure Context where
  bindings : List (CtxKey × CtxVal) := []
deriving DecidableEq, Repr

/-- Go `context.WithValue`. -/
def Context.WithValue (parent : Context) (key : CtxKey) (val : CtxVal) : Context :=
  ⟨(key, val) :: parent.bindings⟩

/-- Go `Context.Value`: the innermost binding of `key`. -/
def Context.Value (ctx : Context) (key : CtxKey) : Option CtxVal :=
  ctx.bindings.lookup key

/-- The part of `*http.Request` the package reads: the transport method, the
parsed query of the URL (`req.URL.Query()`), the header, the context and the
parsed forms. -/
structure Request where
  Method : String := ""
  URLQuery : Values := []
  Header : Values := []
  ctx : Context := {}
  MultipartForm : Option Values := none
  PostForm : Option Values := none
  Form : Option Values := none
deriving DecidableEq, Repr

/-- Go `Request.WithContext`: a copy of the request carrying `ctx`. -/
def Request.WithContext (req : Request) (ctx : Context) : Request :=
  { req with ctx := ctx }

/-- Go `Request.Context`. -/
def Request.Context (req : Request) : Norman.Context := req.ctx

/-- A `types.Schema`, reduced to its identifier. -/
structure Schema where
  ID : String
deriving DecidableEq, Repr

/-- The schema registry `types.Schemas` with its lookup `Schemas.Schema`. -/
structure Schemas where
  Schema : String → Option Schema

/-- A `types.URLBuilder` value. -/
structure URLBuilder where
  handle : Nat
deriving DecidableEq, Repr

/-- An `http.ResponseWriter`. -/
abbrev ResponseWriter := Option Nat

/-- The source struct `ParsedURL`. -/
structure ParsedURL where
  Type_ : String := ""
  Name : String := ""
  Link : String := ""
  Method : String := ""
  Action : String := ""
  Prefix : String := ""
  SubContext : List (String × String) := []
  Query : Option Values := none
deriving DecidableEq, Repr

/-- The source type `URLParser`; the strategy is a function of its arguments. -/
abbrev URLParser := ResponseWriter → Request → Option Schemas → ParsedURL × Option GoError

/-- The fields of `types.APIRequest` that `Parse` reads or writes. -/
structure APIRequest where
  Type_ : String := ""
  Name : String := ""
  Link : String := ""
  Method : String := ""
  Action : String := ""
  URLPrefix : String := ""
  Query : Option Values := none
  ResponseFormat : String := ""
  Schema : Option Schema := none
  URLBuilder : Option URLBuilder := none
  Request : Option Request := none
  Response : ResponseWriter := none
  Schemas : Option Schemas := none

/-- Collaborators of `parse.go` defined elsewhere: the lower-case table of Go
`unicode`, `IsBrowser`, `urlbuilder.New` (applied to the request, the prefix of
the `DefaultPathResolver` and the registry) and `ValidateMethod`. -/
structure Env where
  caseTable : Char → Char
  IsBrowser : Request → Bool → Bool
  urlbuilderNew : Request → String → Option Schemas → Option URLBuilder × Option GoError
  ValidateMethod : APIRequest → Option GoError

/-! ## `parse.go` -/

/-- Source `allowedFormats`. -/
def allowedFormatsTable : List (String × Bool) :=
  [("html", true), ("json", true), ("yaml", true)]

/-- Indexing the map `allowedFormats`; a missing key reads as `false`. -/
def allowedFormats (format : String) : Bool :=
  (allowedFormatsTable.lookup format).getD false

/-- Source `GetAPIContext`: the value bound to `apiOpKey{}`, when it is a
`*types.APIRequest`. -/
def GetAPIContext (ctx : Context) : Option Ptr :=
  match ctx.Value CtxKey.apiOpKey with
  | some (CtxVal.apiRequest p) => some p
  | _ => none

/-- Source `isYaml`. -/
def isYaml (req : Request) : Bool :=
  stringsContains (req.Header.Get "Accept") "application/yaml"

/-- Source `parseResponseFormat`. -/
def parseResponseFormat (env : Env) (req : Request) : String :=
  let format := req.URLQuery.Get "_format"
  let format :=
    if format ≠ "" then stringsTrimSpace (stringsToLower env.caseTable format) else format
  if allowedFormats format then format
  else if env.IsBrowser req true then "html"
  else if isYaml req then "yaml"
  else "json"

/-- Source `parseMethod`. -/
def parseMethod (req : Request) : String :=
  let method := req.URLQuery.Get "_method"
  if method = "" then req.Method else method

/-- The call `http.NewRequest("GET", "/", nil)`: with these arguments the
library validates the method and parses the URL successfully. -/
def httpNewRequestGetRoot : Except GoError Request :=
  .ok { Method := "GET" }

/-- Lines 71-91 of `Parse`: unset fields are filled from the parsed URL. -/
def mergeParsedURL (apiOp : APIRequest) (parsedURL : ParsedURL) : APIRequest :=
  let apiOp := if apiOp.Type_ = "" then { apiOp with Type_ := parsedURL.Type_ } else apiOp
  let apiOp := if apiOp.Name = "" then { apiOp with Name := parsedURL.Name } else apiOp
  let apiOp := if apiOp.Link = "" then { apiOp with Link := parsedURL.Link } else apiOp
  let apiOp := if apiOp.Action = "" then { apiOp with Action := parsedURL.Action } else apiOp
  let apiOp := if apiOp.Query.isNone then { apiOp with Query := parsedURL.Query } else apiOp
  let apiOp :=
    if apiOp.Method = "" ∧ parsedURL.Method ≠ "" then { apiOp with Method := parsedURL.Method }
    else apiOp
  if apiOp.URLPrefix = "" then { apiOp with URLPrefix := parsedURL.Prefix } else apiOp

/-- Lines 108-114 of `Parse`: the schema is looked up by type when none is
attached and a registry exists, and an empty type falls back to the identifier
of the schema. -/
def resolveSchema (apiOp : APIRequest) : APIRequest :=
  let apiOp :=
    match apiOp.Schema, apiOp.Schemas with
    | none, some schemas => { apiOp with Schema := schemas.Schema apiOp.Type_ }
    | _, _ => apiOp
  match apiOp.Schema with
  | some schema => if apiOp.Type_ = "" then { apiOp with Type_ := schema.ID } else apiOp
  | none => apiOp

/-- Lines 104-120 of `Parse`: the deferred URL-parse error, schema resolution
and method validation. -/
def finishParse (env : Env) (apiOp : APIRequest) (err : Option GoError) :
    APIRequest × Option GoError :=
  match err with
  | some e => (apiOp, some e)
  | none =>
    let apiOp := resolveSchema apiOp
    match env.ValidateMethod apiOp with
    | some e => (apiOp, some e)
    | none => (apiOp, none)

/-- Lines 57-120 of `Parse`, for the descriptor at address `self` whose request
is `req`. -/
def parseWithRequest (env : Env) (self : Ptr) (req : Request) (apiOp : APIRequest)
    (urlParser : URLParser) : APIRequest × Option GoError :=
  let ctx := req.Context.WithValue CtxKey.apiOpKey (CtxVal.apiRequest self)
  let req := req.WithContext ctx
  let apiOp := { apiOp with Request := some req }
  let apiOp := if apiOp.Method = "" then { apiOp with Method := parseMethod req } else apiOp
  let apiOp :=
    if apiOp.ResponseFormat = "" then
      { apiOp with ResponseFormat := parseResponseFormat env req }
    else apiOp
  let parsed := urlParser apiOp.Response req apiOp.Schemas
  let apiOp := mergeParsedURL apiOp parsed.1
  match apiOp.URLBuilder with
  | none =>
    let built := env.urlbuilderNew req apiOp.URLPrefix apiOp.Schemas
    let apiOp := { apiOp with URLBuilder := built.1 }
    match built.2 with
    | some e => (apiOp, some e)
    | none => finishParse env apiOp parsed.2
  | some _ => finishParse env apiOp parsed.2

/-- Source `Parse`, run on the descriptor stored at address `self`: the
descriptor after the call and the returned error. -/
def Parse (env : Env) (self : Ptr) (apiOp : APIRequest) (urlParser : URLParser) :
    APIRequest × Option GoError :=
  match apiOp.Request with
  | some req => parseWithRequest env self req apiOp urlParser
  | none =>
    match httpNewRequestGetRoot with
    | .error e => (apiOp, some e)
    | .ok req => parseWithRequest env self req { apiOp with Request := some req } urlParser

/-! ## `parse.go`: the body extractor -/

/-- Source `maxFormSize`. -/
def maxFormSize : Nat := (2 * 1) <<< 20

/-- A Go `interface{}` stored in a body map: a `[]string`, or a value of any
other type. -/
inductive Interface where
  | strings (vs : List String)
  | other (n : Nat)
deriving DecidableEq, Repr

/-- Modelled from the spec: `types.APIObject`, the uniform key-to-value(s)
object of a payload, as the map it carries. -/
structure APIObject where
  Object : List (String × Interface)
deriving DecidableEq, Repr

/-- Collaborators of `Body` defined elsewhere: `Request.ParseMultipartForm` of
the Go library (the request as the call leaves it; `Body` drops its error),
`types.ToAPI` and `ReadBody`. -/
structure BodyEnv where
  ParseMultipartForm : Request → Nat → Request
  ToAPI : List (String × Interface) → APIObject
  ReadBody : Request → APIObject × Option GoError

/-- Source `valuesToBody`: every key of `input` is stored with its list of
values, and the map is wrapped by `types.ToAPI`. -/
def valuesToBody (env : BodyEnv) (input : Values) : APIObject :=
  env.ToAPI (input.map (fun kv => (kv.1, Interface.strings kv.2)))

/-- Source `Body`. In a request, `MultipartForm` is the `Value` map of the
multipart form (`none` for a nil form); a nil `Form` ranges like an empty map. -/
def Body (env : BodyEnv) (req : Request) : APIObject × Option GoError :=
  let req := env.ParseMultipartForm req maxFormSize
  match req.MultipartForm with
  | some value => (valuesToBody env value, none)
  | none =>
    if req.PostForm.isSome ∧ 0 < (req.PostForm.getD []).length then
      (valuesToBody env (req.Form.getD []), none)
    else env.ReadBody req

/-! ## The calls `Parse` makes to its collaborators -/

/-- The request `Parse` hands to the URL-parsing strategy and to the
link-builder factory: the request of the descriptor (the synthesised `GET /`
when there is none) carrying the context that binds the descriptor. -/
def strategyRequest (self : Ptr) (apiOp : APIRequest) : Request :=
  let req :=
    match apiOp.Request with
    | some req => req
    | none => { Method := "GET" }
  req.WithContext (req.Context.WithValue CtxKey.apiOpKey (CtxVal.apiRequest self))

/-- The answer of the URL-parsing strategy at line 68. -/
def strategyResult (self : Ptr) (apiOp : APIRequest) (urlParser : URLParser) :
    ParsedURL × Option GoError :=
  urlParser apiOp.Response (strategyRequest self apiOp) apiOp.Schemas

/-- The prefix in the `DefaultPathResolver` at line 97: `URLPrefix` after the
merge of lines 89-91. -/
def resolvedPrefix (apiOp : APIRequest) (parsedURL : ParsedURL) : String :=
  if apiOp.URLPrefix = "" then parsedURL.Prefix else apiOp.URLPrefix

/-- The answer of `urlbuilder.New` at line 96. -/
def factoryResult (env : Env) (self : Ptr) (apiOp : APIRequest) (urlParser : URLParser) :
    Option URLBuilder × Option GoError :=
  env.urlbuilderNew (strategyRequest self apiOp)
    (resolvedPrefix apiOp (strategyResult self apiOp urlParser).1) apiOp.Schemas

/-- The descriptor handed to `ValidateMethod` at line 116: the descriptor
after method and format resolution, the merge of the parsed URL, the attachment
of the link-builder and schema resolution. -/
def validatedOp (env : Env) (self : Ptr) (apiOp : APIRequest) (urlParser : URLParser) :
    APIRequest :=
  let merged := mergeParsedURL
    { apiOp with
      Request := some (strategyRequest self apiOp)
      Method :=
        if apiOp.Method = "" then parseMethod (strategyRequest self apiOp) else apiOp.Method
      ResponseFormat :=
        if apiOp.ResponseFormat = "" then parseResponseFormat env (strategyRequest self apiOp)
        else apiOp.ResponseFormat }
    (strategyResult self apiOp urlParser).1
  match apiOp.URLBuilder with
  | some _ => resolveSchema merged
  | none => resolveSchema { merged with URLBuilder := (factoryResult env self apiOp urlParser).1 }

/-! ## Vocabulary of the specification -/

/-- The list `body` spells `target` with every letter in lower or upper case. -/
def isCaseVariant : List Char → List Char → Bool
  | [], [] => true
  | c :: cs, d :: ds => (c == d || c == d.toUpper) && isCaseVariant cs ds
  | _, _ => false

/-- The request `req` with the query parameter `key` absent. -/
def withoutQueryParam (req : Request) (key : String) : Request :=
  { req with URLQuery := req.URLQuery.filter (fun kv => kv.1 != key) }

/-! ## Concrete inputs -/

/-- Collaborators for concrete runs: identity case table, no browser, a
link-builder factory that succeeds and a validator that accepts. -/
def plainEnv : Env where
  caseTable := id
  IsBrowser := fun _ _ => false
  urlbuilderNew := fun _ _ _ => (some ⟨1⟩, none)
  ValidateMethod := fun _ => none

/-- Collaborators for concrete runs in which every request looks like a
browser request. -/
def browserEnv : Env :=
  { plainEnv with IsBrowser := fun _ _ => true }

/-- A URL-parsing strategy that finds nothing and reports no error. -/
def emptyStrategy : URLParser :=
  fun _ _ _ => ({}, none)

/-- A URL-parsing strategy that returns a partial result together with an
error. -/
def failingStrategy : URLParser :=
  fun _ _ _ =>
    ({ Type_ := "pods", Name := "p1", Method := "GET", Prefix := "/v3",
       Query := some [("limit", ["5"])] },
     some ⟨"url parse failed"⟩)

/-- Collaborators for concrete runs in which the link-builder factory fails. -/
def brokenFactoryEnv : Env :=
  { plainEnv with urlbuilderNew := fun _ _ _ => (none, some ⟨"no builder"⟩) }

/-- A descriptor whose mergeable fields are all populated by the caller. -/
def populatedOp : APIRequest :=
  { Type_ := "nodes", Name := "n1", Link := "self", Action := "restart", URLPrefix := "/v1",
    Query := some [], Schema := some ⟨"node"⟩, URLBuilder := some ⟨7⟩ }

/-- Collaborators of `Body` for concrete runs on requests whose forms are
parsed already: parsing leaves the request as it is, `ToAPI` wraps the map and
the raw-body reader answers with a fixed object and error. -/
def parsedBodyEnv : BodyEnv where
  ParseMultipartForm := fun req _ => req
  ToAPI := fun m => ⟨m⟩
  ReadBody := fun _ => (⟨[("raw", Interface.other 0)]⟩, some ⟨"unreadable body"⟩)

/-- A multipart submission with the fields `a = 1, 2`, together with a query
parameter and a posted value. -/
def multipartRequest : Request :=
  { Method := "POST", URLQuery := [("q", ["9"])],
    MultipartForm := some [("a", ["1", "2"])],
    PostForm := some [("a", ["1", "2"])],
    Form := some [("a", ["1", "2"]), ("q", ["9"])] }

/-- A multipart submission without value fields (for instance files only). -/
def emptyMultipartRequest : Request :=
  { Method := "POST", URLQuery := [("q", ["9"])],
    MultipartForm := some [], PostForm := some [], Form := some [("q", ["9"])] }

/-- A form-encoded POST of `a = 1` to a URL with the query `q = 2`. -/
def formRequest : Request :=
  { Method := "POST", URLQuery := [("q", ["2"])],
    PostForm := some [("a", ["1"])],
    Form := some [("a", ["1"]), ("q", ["2"])] }

/-- A request without multipart form and without posted values. -/
def rawRequest : Request :=
  { Method := "POST", PostForm := some [], Form := some [] }

/-- A registry that knows the schema `pod` under every type name. -/
def podSchemas : Schemas :=
  ⟨fun _ => some ⟨"pod"⟩⟩

/-- A URL-parsing strategy that succeeds with a prefix and nothing else. -/
def prefixStrategy : URLParser :=
  fun _ _ _ => ({ Prefix := "/v3" }, none)

/-- Collaborators for concrete runs in which the method validator rejects. -/
def rejectingEnv : Env :=
  { plainEnv with ValidateMethod := fun _ => some ⟨"method not allowed"⟩ }

/-- Collaborators for concrete runs in which the link-builder factory works
for the prefix `/v3` only. -/
def prefixFactoryEnv : Env :=
  { plainEnv with
    urlbuilderNew := fun _ pfx _ =>
      if pfx = "/v3" then (some ⟨3⟩, none) else (none, some ⟨"unknown prefix"⟩) }

/-! ## Facts about the string library model -/

theorem allowedFormats_iff (f : String) :
    allowedFormats f = true ↔ f = "html" ∨ f = "json" ∨ f = "yaml" := by
  unfold allowedFormats allowedFormatsTable
  by_cases h1 : f = "html"
  · subst h1; decide
  by_cases h2 : f = "json"
  · subst h2; decide
  by_cases h3 : f = "yaml"
  · subst h3; decide
  have e1 : (f == "html") = false := by simpa using h1
  have e2 : (f == "json") = false := by simpa using h2
  have e3 : (f == "yaml") = false := by simpa using h3
  simp [List.lookup, h1, h2, h3, e1, e2, e3]

theorem stringsTrimSpace_toLower_empty (tbl : Char → Char) :
    stringsTrimSpace (stringsToLower tbl "") = "" := by
  rfl

theorem hasPrefixChars_iff : ∀ (s sub : List Char), hasPrefixChars s sub = true ↔ sub <+: s
  | _, [] => by simp [hasPrefixChars]
  | [], _ :: _ => by simp [hasPrefixChars]
  | c :: cs, p :: ps => by
    have ih := hasPrefixChars_iff cs ps
    simp only [hasPrefixChars, Bool.and_eq_true, beq_iff_eq, ih, List.cons_prefix_cons]
    constructor
    · rintro ⟨h1, h2⟩
      exact ⟨h1.symm, h2⟩
    · rintro ⟨h1, h2⟩
      exact ⟨h1.symm, h2⟩

/-- The model of `strings.Contains` decides whether `sub` is a contiguous part
of `s`. -/
theorem containsChars_iff : ∀ (s sub : List Char), containsChars s sub = true ↔ sub <:+: s
  | [], sub => by
    simp only [containsChars, hasPrefixChars_iff, List.prefix_nil, List.infix_nil]
  | c :: cs, sub => by
    have ih := containsChars_iff cs sub
    simp only [containsChars, Bool.or_eq_true, hasPrefixChars_iff, ih, List.infix_cons_iff]

theorem parseResponseFormat_eq (env : Env) (req : Request) :
    parseResponseFormat env req =
      (let f := stringsTrimSpace (stringsToLower env.caseTable (req.URLQuery.Get "_format"))
       if f = "html" ∨ f = "json" ∨ f = "yaml" then f
       else if env.IsBrowser req true = true then "html"
       else if stringsContains (req.Header.Get "Accept") "application/yaml" = true then "yaml"
       else "json") := by
  have hfmt : (if req.URLQuery.Get "_format" ≠ "" then
        stringsTrimSpace (stringsToLower env.caseTable (req.URLQuery.Get "_format"))
      else req.URLQuery.Get "_format")
      = stringsTrimSpace (stringsToLower env.caseTable (req.URLQuery.Get "_format")) := by
    by_cases h : req.URLQuery.Get "_format" = ""
    · rw [h]; rfl
    · simp [h]
  unfold parseResponseFormat isYaml
  simp only [hfmt]
  by_cases ha : allowedFormats
      (stringsTrimSpace (stringsToLower env.caseTable (req.URLQuery.Get "_format"))) = true
  · have := (allowedFormats_iff _).1 ha
    simp [ha, this]
  · have hn := mt (allowedFormats_iff _).2 ha
    simp [ha, hn]

theorem parseResponseFormat_range (env : Env) (req : Request) :
    parseResponseFormat env req = "html" ∨ parseResponseFormat env req = "json"
      ∨ parseResponseFormat env req = "yaml" := by
  rw [parseResponseFormat_eq]
  simp only []
  split_ifs with h1 h2 h3
  · exact h1
  · exact Or.inl rfl
  · exact Or.inr (Or.inr rfl)
  · exact Or.inr (Or.inl rfl)

theorem unicodeToLower_letter (tbl : Char → Char) (d : Char)
    (h : 97 ≤ d.toNat ∧ d.toNat ≤ 122) :
    unicodeToLower tbl d = d ∧ unicodeToLower tbl d.toUpper = d := by
  have hd : Char.ofNat d.toNat = d := Char.ofNat_toNat d
  obtain ⟨h1, h2⟩ := h
  generalize d.toNat = n at hd h1 h2
  subst hd
  interval_cases n <;> exact ⟨rfl, rfl⟩

theorem unicodeIsSpace_letter (d : Char) (h : 97 ≤ d.toNat ∧ d.toNat ≤ 122) :
    unicodeIsSpace d = false := by
  have hd : Char.ofNat d.toNat = d := Char.ofNat_toNat d
  obtain ⟨h1, h2⟩ := h
  generalize d.toNat = n at hd h1 h2
  subst hd
  interval_cases n <;> rfl

theorem unicodeIsSpace_toLower (tbl : Char → Char)
    (htbl : ∀ c, unicodeIsSpace c = true → unicodeIsSpace (tbl c) = true)
    (c : Char) (hc : unicodeIsSpace c = true) :
    unicodeIsSpace (unicodeToLower tbl c) = true := by
  unfold unicodeToLower
  by_cases h7 : c.toNat ≤ 0x7F
  · by_cases hup : 0x41 ≤ c.toNat ∧ c.toNat ≤ 0x5A
    · exfalso
      have hd : Char.ofNat c.toNat = c := Char.ofNat_toNat c
      obtain ⟨h1, h2⟩ := hup
      generalize c.toNat = n at hd h1 h2
      subst hd
      interval_cases n <;> simp [unicodeIsSpace] at hc
    · simp [h7, hup, hc]
  · simp [h7, htbl c hc]

theorem map_toLower_of_caseVariant (tbl : Char → Char) :
    ∀ (body target : List Char), (∀ d ∈ target, 97 ≤ d.toNat ∧ d.toNat ≤ 122) →
      isCaseVariant body target = true → body.map (unicodeToLower tbl) = target
  | [], [], _, _ => rfl
  | [], _ :: _, _, h => by simp [isCaseVariant] at h
  | _ :: _, [], _, h => by simp [isCaseVariant] at h
  | c :: cs, d :: ds, hl, h => by
    simp only [isCaseVariant, Bool.and_eq_true, Bool.or_eq_true, beq_iff_eq] at h
    have hd := unicodeToLower_letter tbl d (hl d (List.mem_cons_self _ _))
    have ih := map_toLower_of_caseVariant tbl cs ds
      (fun x hx => hl x (List.mem_cons_of_mem _ hx)) h.2
    rcases h.1 with rfl | rfl
    · simp [hd.1, ih]
    · simp [hd.2, ih]

theorem dropWhile_append_of_all {p : Char → Bool} :
    ∀ (l r : List Char), (∀ c ∈ l, p c = true) → (l ++ r).dropWhile p = r.dropWhile p
  | [], _, _ => rfl
  | c :: cs, r, h => by
    have hc : p c = true := h c (List.mem_cons_self _ _)
    have ih := dropWhile_append_of_all cs r (fun x hx => h x (List.mem_cons_of_mem _ hx))
    simp [List.dropWhile_cons, hc, ih]

theorem dropWhile_of_none {p : Char → Bool} (l : List Char) (h : ∀ c ∈ l, p c = false) :
    l.dropWhile p = l := by
  cases l with
  | nil => rfl
  | cons c cs => simp [List.dropWhile_cons, h c (List.mem_cons_self _ _)]

theorem stringsTrimSpace_sandwich (lead mid trail : List Char)
    (hlead : ∀ c ∈ lead, unicodeIsSpace c = true)
    (htrail : ∀ c ∈ trail, unicodeIsSpace c = true)
    (hmid : ∀ c ∈ mid, unicodeIsSpace c = false) :
    stringsTrimSpace ⟨lead ++ mid ++ trail⟩ = ⟨mid⟩ := by
  unfold stringsTrimSpace
  congr 1
  show (List.dropWhile unicodeIsSpace
    (List.dropWhile unicodeIsSpace (lead ++ mid ++ trail)).reverse).reverse = mid
  rw [List.append_assoc, dropWhile_append_of_all lead _ hlead]
  cases mid with
  | nil =>
    have h0 : trail.dropWhile unicodeIsSpace = [] := by
      have := dropWhile_append_of_all trail [] htrail
      simpa using this
    simp [h0]
  | cons c cs =>
    have h1 : (c :: cs ++ trail).dropWhile unicodeIsSpace = c :: cs ++ trail := by
      simp [List.dropWhile_cons, hmid c (List.mem_cons_self _ _)]
    have h2 : (trail.reverse ++ (c :: cs).reverse).dropWhile unicodeIsSpace
        = (c :: cs).reverse.dropWhile unicodeIsSpace :=
      dropWhile_append_of_all _ _ (fun x hx => htrail x (List.mem_reverse.1 hx))
    have h3 : (c :: cs).reverse.dropWhile unicodeIsSpace = (c :: cs).reverse :=
      dropWhile_of_none _ (fun x hx => hmid x (List.mem_reverse.1 hx))
    rw [h1, List.reverse_append, h2, h3, List.reverse_reverse]

theorem lookup_filter_ne (key : String) :
    ∀ (v : Values), (v.filter (fun kv => kv.1 != key)).lookup key = none
  | [] => rfl
  | (k, vs) :: rest => by
    have ih := lookup_filter_ne key rest
    by_cases hk : k = key
    · subst hk
      simp [List.filter_cons, ih]
    · have hb : (key == k) = false := by
        simpa using fun h => hk h.symm
      simp [List.filter_cons, hk, List.lookup, hb, ih]

theorem get_withoutQueryParam (req : Request) (key : String) :
    (withoutQueryParam req key).URLQuery.Get key = "" := by
  simp [withoutQueryParam, Values.Get, lookup_filter_ne]

/-! ## The content negotiator and the method resolver -/

/-- C6: `parseResponseFormat` follows the fixed precedence: the lower-cased,
trimmed `_format` value when it is html, json or yaml; otherwise html when
`IsBrowser(req, true)` holds; otherwise yaml when the Accept header contains
`application/yaml`; otherwise json. -/
theorem parseResponseFormat_precedence (env : Env) (req : Request) :
    parseResponseFormat env req =
      (let f := stringsTrimSpace (stringsToLower env.caseTable (req.URLQuery.Get "_format"))
       if f = "html" ∨ f = "json" ∨ f = "yaml" then f
       else if env.IsBrowser req true = true then "html"
       else if stringsContains (req.Header.Get "Accept") "application/yaml" = true then "yaml"
       else "json") :=
  parseResponseFormat_eq env req

/-- C7: for every request, every header and every answer of the browser
heuristic, `parseResponseFormat` returns html, json or yaml. -/
theorem parseResponseFormat_closed (env : Env) (req : Request) :
    parseResponseFormat env req = "html" ∨ parseResponseFormat env req = "json"
      ∨ parseResponseFormat env req = "yaml" :=
  parseResponseFormat_range env req

/-- C8: when the `_format` value is a recognised format `f` written in any
mix of upper and lower case and surrounded by any white space,
`parseResponseFormat` returns `f`, whatever the browser heuristic and the
Accept header say (the case table of the library keeps white space white). -/
theorem parseResponseFormat_format_any_case (env : Env) (req : Request) (f : String)
    (lead body trail : List Char)
    (hf : f = "html" ∨ f = "json" ∨ f = "yaml")
    (hq : req.URLQuery.Get "_format" = ⟨lead ++ body ++ trail⟩)
    (hbody : isCaseVariant body f.data = true)
    (hlead : ∀ c ∈ lead, unicodeIsSpace c = true)
    (htrail : ∀ c ∈ trail, unicodeIsSpace c = true)
    (htbl : ∀ c, unicodeIsSpace c = true → unicodeIsSpace (env.caseTable c) = true) :
    parseResponseFormat env req = f := by
  have hletters : ∀ d ∈ f.data, 97 ≤ d.toNat ∧ d.toNat ≤ 122 := by
    rcases hf with rfl | rfl | rfl <;> decide
  have hlow : stringsToLower env.caseTable ⟨lead ++ body ++ trail⟩
      = ⟨lead.map (unicodeToLower env.caseTable) ++ f.data
          ++ trail.map (unicodeToLower env.caseTable)⟩ := by
    simp [stringsToLower, map_toLower_of_caseVariant env.caseTable body f.data hletters hbody]
  have htrim : stringsTrimSpace (stringsToLower env.caseTable ⟨lead ++ body ++ trail⟩) = f := by
    rw [hlow, stringsTrimSpace_sandwich]
    · intro c hc
      obtain ⟨a, ha, rfl⟩ := List.mem_map.1 hc
      exact unicodeIsSpace_toLower _ htbl a (hlead a ha)
    · intro c hc
      obtain ⟨a, ha, rfl⟩ := List.mem_map.1 hc
      exact unicodeIsSpace_toLower _ htbl a (htrail a ha)
    · exact fun c hc => unicodeIsSpace_letter c (hletters c hc)
  rw [parseResponseFormat_eq, hq]
  simp only [htrim]
  rw [if_pos hf]

/-- Witness of C8: `_format= YAML ` on a browser request gives yaml. -/
theorem parseResponseFormat_format_any_case_witness :
    parseResponseFormat browserEnv { URLQuery := [("_format", [" YAML "])] } = "yaml" :=
  parseResponseFormat_format_any_case browserEnv { URLQuery := [("_format", [" YAML "])] }
    "yaml" [' '] ['Y', 'A', 'M', 'L'] [' '] (by decide) (by decide) (by decide) (by decide)
    (by decide) (fun _ h => h)

/-- C9: when the lower-cased, trimmed `_format` value is not html, json or
yaml, `parseResponseFormat` returns html for a browser, else yaml when Accept
contains `application/yaml`, else json; this is the value returned for the
request without the `_format` parameter, provided the browser heuristic
answers alike for both. -/
theorem parseResponseFormat_unrecognised (env : Env) (req : Request)
    (hfmt : allowedFormats
      (stringsTrimSpace (stringsToLower env.caseTable (req.URLQuery.Get "_format"))) = false)
    (hbrowser : env.IsBrowser (withoutQueryParam req "_format") true = env.IsBrowser req true) :
    parseResponseFormat env req = parseResponseFormat env (withoutQueryParam req "_format")
      ∧ parseResponseFormat env req =
          (if env.IsBrowser req true = true then "html"
           else if stringsContains (req.Header.Get "Accept") "application/yaml" = true
             then "yaml"
           else "json") := by
  have hn : ¬ (stringsTrimSpace (stringsToLower env.caseTable (req.URLQuery.Get "_format"))
        = "html"
      ∨ stringsTrimSpace (stringsToLower env.caseTable (req.URLQuery.Get "_format")) = "json"
      ∨ stringsTrimSpace (stringsToLower env.caseTable (req.URLQuery.Get "_format"))
        = "yaml") := by
    intro h
    rw [(allowedFormats_iff _).2 h] at hfmt
    exact Bool.noConfusion hfmt
  have hsecond : parseResponseFormat env req =
      (if env.IsBrowser req true = true then "html"
       else if stringsContains (req.Header.Get "Accept") "application/yaml" = true
         then "yaml"
       else "json") := by
    rw [parseResponseFormat_eq]
    simp only []
    rw [if_neg hn]
  refine ⟨?_, hsecond⟩
  rw [hsecond, parseResponseFormat_eq, get_withoutQueryParam, hbrowser]
  have hempty : stringsTrimSpace (stringsToLower env.caseTable "") = "" := rfl
  simp only [hempty]
  have hhdr : (withoutQueryParam req "_format").Header = req.Header := rfl
  have hne : ¬ (("" : String) = "html" ∨ ("" : String) = "json" ∨ ("" : String) = "yaml") := by
    decide
  rw [hhdr, if_neg hne]

/-- Witness of C9: `_format=xml` with an Accept header naming yaml. -/
theorem parseResponseFormat_unrecognised_witness :
    parseResponseFormat plainEnv
        { URLQuery := [("_format", ["xml"])], Header := [("Accept", ["application/yaml"])] }
      = parseResponseFormat plainEnv (withoutQueryParam
        { URLQuery := [("_format", ["xml"])], Header := [("Accept", ["application/yaml"])] }
        "_format")
    ∧ parseResponseFormat plainEnv
        { URLQuery := [("_format", ["xml"])], Header := [("Accept", ["application/yaml"])] }
      = "yaml" :=
  parseResponseFormat_unrecognised plainEnv
    { URLQuery := [("_format", ["xml"])], Header := [("Accept", ["application/yaml"])] }
    (by decide) rfl

/-- C10: `parseMethod` returns the `_method` query parameter when it is not
empty and the transport method otherwise, whatever the value is; `_method=DELETE`
on a GET request gives DELETE. -/
theorem parseMethod_override (req : Request) (transport m : String) (more : List String)
    (query : Values) (header : Values) :
    parseMethod req =
        (if req.URLQuery.Get "_method" = "" then req.Method else req.URLQuery.Get "_method")
      ∧ parseMethod
          { Method := transport, URLQuery := ("_method", m :: more) :: query, Header := header }
        = (if m = "" then transport else m)
      ∧ parseMethod { Method := "GET", URLQuery := [("_method", ["DELETE"])] } = "DELETE" := by
  refine ⟨rfl, ?_, by decide⟩
  simp [parseMethod, Values.Get, List.lookup]

/-! ## Field-wise description of the stages of `Parse` -/

theorem mergeParsedURL_eq (a : APIRequest) (p : ParsedURL) :
    mergeParsedURL a p =
      { a with
        Type_ := if a.Type_ = "" then p.Type_ else a.Type_
        Name := if a.Name = "" then p.Name else a.Name
        Link := if a.Link = "" then p.Link else a.Link
        Action := if a.Action = "" then p.Action else a.Action
        Query := if a.Query.isNone then p.Query else a.Query
        Method := if a.Method = "" ∧ p.Method ≠ "" then p.Method else a.Method
        URLPrefix := if a.URLPrefix = "" then p.Prefix else a.URLPrefix } := by
  obtain ⟨ty, nm, lk, me, ac, up, qu, rf, sc, ub, rq, rs, ss⟩ := a
  unfold mergeParsedURL
  dsimp only
  by_cases h1 : ty = "" <;> simp only [h1, if_true, if_false]
    <;> by_cases h2 : nm = "" <;> simp only [h2, if_true, if_false]
    <;> by_cases h3 : lk = "" <;> simp only [h3, if_true, if_false]
    <;> by_cases h4 : ac = "" <;> simp only [h4, if_true, if_false]
    <;> by_cases h5 : qu.isNone = true <;> simp only [h5, if_true, if_false, Bool.false_eq_true]
    <;> by_cases h6 : me = "" <;> by_cases h6b : p.Method = ""
    <;> simp only [h6, h6b, ne_eq, not_true_eq_false, not_false_eq_true, and_true, and_false,
      true_and, false_and, if_true, if_false]
    <;> by_cases h7 : up = "" <;> simp only [h7, if_true, if_false]

theorem resolveSchema_eq (a : APIRequest) :
    resolveSchema a =
      { a with
        Schema :=
          match a.Schema, a.Schemas with
          | none, some schemas => schemas.Schema a.Type_
          | _, _ => a.Schema
        Type_ :=
          match (match a.Schema, a.Schemas with
            | none, some schemas => schemas.Schema a.Type_
            | _, _ => a.Schema) with
          | some schema => if a.Type_ = "" then schema.ID else a.Type_
          | none => a.Type_ } := by
  obtain ⟨ty, nm, lk, me, ac, up, qu, rf, sc, ub, rq, rs, ss⟩ := a
  unfold resolveSchema
  cases sc <;> cases ss <;> dsimp only
  · rename_i schemas
    cases schemas.Schema ty <;> dsimp only
    split_ifs <;> rfl
  · split_ifs <;> rfl
  · split_ifs <;> rfl

theorem finishParse_fst (env : Env) (a : APIRequest) (err : Option GoError) :
    (finishParse env a err).1 = if err.isSome then a else resolveSchema a := by
  unfold finishParse
  cases err with
  | some e => rfl
  | none =>
    dsimp only
    cases env.ValidateMethod (resolveSchema a) <;> rfl

theorem finishParse_snd (env : Env) (a : APIRequest) (err : Option GoError) :
    (finishParse env a err).2
      = match err with
        | some e => some e
        | none => env.ValidateMethod (resolveSchema a) := by
  unfold finishParse
  cases err with
  | some e => rfl
  | none =>
    dsimp only
    cases env.ValidateMethod (resolveSchema a) <;> rfl

/-- The descriptor after lines 50-91 of `Parse`. -/
theorem parseWithRequest_eq (env : Env) (self : Ptr) (req : Request) (apiOp : APIRequest)
    (urlParser : URLParser) (hreq : apiOp.Request = some req) :
    parseWithRequest env self req apiOp urlParser =
      (let merged := mergeParsedURL
          { apiOp with
            Request := some (strategyRequest self apiOp)
            Method :=
              if apiOp.Method = "" then parseMethod (strategyRequest self apiOp)
              else apiOp.Method
            ResponseFormat :=
              if apiOp.ResponseFormat = "" then
                parseResponseFormat env (strategyRequest self apiOp)
              else apiOp.ResponseFormat }
          (strategyResult self apiOp urlParser).1
       match apiOp.URLBuilder with
       | some _ => finishParse env merged (strategyResult self apiOp urlParser).2
       | none =>
         match (factoryResult env self apiOp urlParser).2 with
         | some e =>
           ({ merged with URLBuilder := (factoryResult env self apiOp urlParser).1 }, some e)
         | none =>
           finishParse env
             { merged with URLBuilder := (factoryResult env self apiOp urlParser).1 }
             (strategyResult self apiOp urlParser).2) := by
  obtain ⟨ty, nm, lk, me, ac, up, qu, rf, sc, ub, rq, rs, ss⟩ := apiOp
  simp only at hreq
  subst hreq
  unfold parseWithRequest factoryResult strategyResult strategyRequest resolvedPrefix
  simp only [mergeParsedURL_eq]
  by_cases hm : me = "" <;> by_cases hf : rf = "" <;> cases ub <;>
    simp only [hm, hf, if_true, if_false]

/-- The result of `Parse` in terms of its stages. -/
theorem Parse_eq (env : Env) (self : Ptr) (apiOp : APIRequest) (urlParser : URLParser) :
    Parse env self apiOp urlParser =
      (let merged := mergeParsedURL
          { apiOp with
            Request := some (strategyRequest self apiOp)
            Method :=
              if apiOp.Method = "" then parseMethod (strategyRequest self apiOp)
              else apiOp.Method
            ResponseFormat :=
              if apiOp.ResponseFormat = "" then
                parseResponseFormat env (strategyRequest self apiOp)
              else apiOp.ResponseFormat }
          (strategyResult self apiOp urlParser).1
       match apiOp.URLBuilder with
       | some _ => finishParse env merged (strategyResult self apiOp urlParser).2
       | none =>
         match (factoryResult env self apiOp urlParser).2 with
         | some e =>
           ({ merged with URLBuilder := (factoryResult env self apiOp urlParser).1 }, some e)
         | none =>
           finishParse env
             { merged with URLBuilder := (factoryResult env self apiOp urlParser).1 }
             (strategyResult self apiOp urlParser).2) := by
  unfold Parse
  cases h : apiOp.Request with
  | some req =>
    simp only
    exact parseWithRequest_eq env self req apiOp urlParser h
  | none =>
    simp only [httpNewRequestGetRoot]
    rw [parseWithRequest_eq env self _ _ urlParser rfl]
    obtain ⟨ty, nm, lk, me, ac, up, qu, rf, sc, ub, rq, rs, ss⟩ := apiOp
    simp only at h
    subst h
    rfl

theorem Parse_ResponseFormat (env : Env) (self : Ptr) (apiOp : APIRequest)
    (urlParser : URLParser) :
    (Parse env self apiOp urlParser).1.ResponseFormat =
      if apiOp.ResponseFormat = "" then parseResponseFormat env (strategyRequest self apiOp)
      else apiOp.ResponseFormat := by
  rw [Parse_eq]
  simp only [mergeParsedURL_eq]
  cases apiOp.URLBuilder <;> cases (factoryResult env self apiOp urlParser).2 <;>
    cases (strategyResult self apiOp urlParser).2 <;>
    simp only [finishParse_fst, resolveSchema_eq, Option.isSome_some, Option.isSome_none,
      if_true, Bool.false_eq_true, if_false]

/-! ## The operation normaliser -/

/-- Counterexample to C1 as stated: a descriptor that enters `Parse` with the
response format xml leaves it with xml, which is none of html, json, yaml. -/
theorem Parse_ResponseFormat_preset_counterexample :
    (Parse plainEnv 0 { ResponseFormat := "xml" } emptyStrategy).1.ResponseFormat = "xml"
      ∧ ¬ ((Parse plainEnv 0 { ResponseFormat := "xml" } emptyStrategy).1.ResponseFormat
            = "html"
          ∨ (Parse plainEnv 0 { ResponseFormat := "xml" } emptyStrategy).1.ResponseFormat
            = "json"
          ∨ (Parse plainEnv 0 { ResponseFormat := "xml" } emptyStrategy).1.ResponseFormat
            = "yaml") := by
  decide

/-- C1 (amended): for every descriptor whose response format on entry is empty
or one of html, json, yaml, and for every URL-parsing strategy, the response
format after `Parse` is one of html, json, yaml, whether or not `Parse`
returns an error. -/
theorem Parse_ResponseFormat_allowed (env : Env) (self : Ptr) (apiOp : APIRequest)
    (urlParser : URLParser)
    (hentry : apiOp.ResponseFormat = "" ∨ apiOp.ResponseFormat = "html"
      ∨ apiOp.ResponseFormat = "json" ∨ apiOp.ResponseFormat = "yaml") :
    (Parse env self apiOp urlParser).1.ResponseFormat = "html"
      ∨ (Parse env self apiOp urlParser).1.ResponseFormat = "json"
      ∨ (Parse env self apiOp urlParser).1.ResponseFormat = "yaml" := by
  rw [Parse_ResponseFormat]
  by_cases h : apiOp.ResponseFormat = ""
  · rw [if_pos h]
    exact parseResponseFormat_range env _
  · rw [if_neg h]
    rcases hentry with h0 | h1
    · exact absurd h0 h
    · exact h1

/-- Witness of C1 (amended): an empty descriptor, a strategy that fails and a
link-builder factory that fails still leave one of the three formats. -/
theorem Parse_ResponseFormat_allowed_witness :
    (Parse brokenFactoryEnv 0 {} failingStrategy).1.ResponseFormat = "html"
      ∨ (Parse brokenFactoryEnv 0 {} failingStrategy).1.ResponseFormat = "json"
      ∨ (Parse brokenFactoryEnv 0 {} failingStrategy).1.ResponseFormat = "yaml" :=
  Parse_ResponseFormat_allowed brokenFactoryEnv 0 {} failingStrategy (Or.inl rfl)

/-- C2: a method, respectively a response format, that is not empty on entry
is the same after `Parse`, for every request, every result of the URL-parsing
strategy and every outcome. -/
theorem Parse_keeps_Method_ResponseFormat (env : Env) (self : Ptr) (apiOp : APIRequest)
    (urlParser : URLParser) :
    (apiOp.Method ≠ "" → (Parse env self apiOp urlParser).1.Method = apiOp.Method)
      ∧ (apiOp.ResponseFormat ≠ "" →
          (Parse env self apiOp urlParser).1.ResponseFormat = apiOp.ResponseFormat) := by
  refine ⟨fun hm => ?_, fun hf => ?_⟩
  · rw [Parse_eq]
    simp only [mergeParsedURL_eq]
    cases apiOp.URLBuilder <;> cases (factoryResult env self apiOp urlParser).2 <;>
      cases (strategyResult self apiOp urlParser).2 <;>
      simp [finishParse_fst, resolveSchema_eq, hm]
  · rw [Parse_ResponseFormat, if_neg hf]

/-- Witness of C2: the method PATCH and the format xml survive a strategy that
proposes GET and fails. -/
theorem Parse_keeps_Method_ResponseFormat_witness :
    (Parse browserEnv 0 { Method := "PATCH", ResponseFormat := "xml" } failingStrategy).1.Method
        = "PATCH"
      ∧ (Parse browserEnv 0 { Method := "PATCH", ResponseFormat := "xml" }
          failingStrategy).1.ResponseFormat = "xml" :=
  ⟨(Parse_keeps_Method_ResponseFormat browserEnv 0 { Method := "PATCH", ResponseFormat := "xml" }
      failingStrategy).1 (by decide),
   (Parse_keeps_Method_ResponseFormat browserEnv 0 { Method := "PATCH", ResponseFormat := "xml" }
      failingStrategy).2 (by decide)⟩

/-- C3: for a descriptor with unset type, name and query, when the URL-parsing
strategy returns a result together with an error and link-builder construction
succeeds, the descriptor ends with the type, name and query of that result and
with a link-builder, and `Parse` returns exactly the error of the strategy. -/
theorem Parse_partial_result (env : Env) (self : Ptr) (apiOp : APIRequest)
    (urlParser : URLParser) (parsedURL : ParsedURL) (e : GoError) (b : URLBuilder)
    (hty : apiOp.Type_ = "") (hnm : apiOp.Name = "") (hqu : apiOp.Query = none)
    (hparse : strategyResult self apiOp urlParser = (parsedURL, some e))
    (hbuild : apiOp.URLBuilder = none →
      factoryResult env self apiOp urlParser = (some b, none)) :
    (Parse env self apiOp urlParser).1.Type_ = parsedURL.Type_
      ∧ (Parse env self apiOp urlParser).1.Name = parsedURL.Name
      ∧ (Parse env self apiOp urlParser).1.Query = parsedURL.Query
      ∧ (Parse env self apiOp urlParser).1.URLBuilder.isSome = true
      ∧ (apiOp.URLBuilder = none → (Parse env self apiOp urlParser).1.URLBuilder = some b)
      ∧ (Parse env self apiOp urlParser).2 = some e := by
  rw [Parse_eq]
  simp only [mergeParsedURL_eq, hparse]
  cases hub : apiOp.URLBuilder with
  | none =>
    simp [hbuild hub, finishParse, hty, hnm, hqu]
  | some ub =>
    simp [finishParse, hty, hnm, hqu, hub]

/-- Witness of C3: an empty descriptor and a strategy that returns a partial
result with an error. -/
theorem Parse_partial_result_witness :
    (Parse plainEnv 0 {} failingStrategy).1.Type_ = "pods"
      ∧ (Parse plainEnv 0 {} failingStrategy).1.Name = "p1"
      ∧ (Parse plainEnv 0 {} failingStrategy).1.Query = some [("limit", ["5"])]
      ∧ (Parse plainEnv 0 {} failingStrategy).1.URLBuilder.isSome = true
      ∧ ((none : Option URLBuilder) = none →
          (Parse plainEnv 0 {} failingStrategy).1.URLBuilder = some ⟨1⟩)
      ∧ (Parse plainEnv 0 {} failingStrategy).2 = some ⟨"url parse failed"⟩ :=
  Parse_partial_result plainEnv 0 {} failingStrategy
    { Type_ := "pods", Name := "p1", Method := "GET", Prefix := "/v3",
      Query := some [("limit", ["5"])] }
    ⟨"url parse failed"⟩ ⟨1⟩ rfl rfl rfl rfl (fun _ => rfl)

/-- C4: for a descriptor without link-builder, when link-builder construction
fails `Parse` returns the construction error, whatever the URL-parsing
strategy returned. -/
theorem Parse_factory_error (env : Env) (self : Ptr) (apiOp : APIRequest)
    (urlParser : URLParser) (e : GoError)
    (hub : apiOp.URLBuilder = none)
    (hfail : (factoryResult env self apiOp urlParser).2 = some e) :
    (Parse env self apiOp urlParser).2 = some e := by
  rw [Parse_eq]
  simp only [hub, hfail]

/-- Witness of C4: the factory fails and the strategy fails too; the error of
the factory is returned. -/
theorem Parse_factory_error_witness :
    (strategyResult 0 {} failingStrategy).2 = some ⟨"url parse failed"⟩
      ∧ (Parse brokenFactoryEnv 0 {} failingStrategy).2 = some ⟨"no builder"⟩ :=
  ⟨rfl, Parse_factory_error brokenFactoryEnv 0 {} failingStrategy ⟨"no builder"⟩ rfl rfl⟩

/-- C5: `Parse` never overwrites a field the caller populated: type, name,
link, action and URL prefix that are not empty on entry, and query, schema and
link-builder that are not nil on entry, are the same after `Parse`, for every
result of the URL-parsing strategy and every outcome. -/
theorem Parse_keeps_populated (env : Env) (self : Ptr) (apiOp : APIRequest)
    (urlParser : URLParser) :
    (apiOp.Type_ ≠ "" → (Parse env self apiOp urlParser).1.Type_ = apiOp.Type_)
      ∧ (apiOp.Name ≠ "" → (Parse env self apiOp urlParser).1.Name = apiOp.Name)
      ∧ (apiOp.Link ≠ "" → (Parse env self apiOp urlParser).1.Link = apiOp.Link)
      ∧ (apiOp.Action ≠ "" → (Parse env self apiOp urlParser).1.Action = apiOp.Action)
      ∧ (apiOp.URLPrefix ≠ "" →
          (Parse env self apiOp urlParser).1.URLPrefix = apiOp.URLPrefix)
      ∧ (apiOp.Query ≠ none → (Parse env self apiOp urlParser).1.Query = apiOp.Query)
      ∧ (apiOp.Schema ≠ none → (Parse env self apiOp urlParser).1.Schema = apiOp.Schema)
      ∧ (apiOp.URLBuilder ≠ none →
          (Parse env self apiOp urlParser).1.URLBuilder = apiOp.URLBuilder) := by
  rw [Parse_eq]
  simp only [mergeParsedURL_eq]
  refine ⟨?_, ?_, ?_, ?_, ?_, ?_, ?_, ?_⟩ <;> intro h <;>
    cases hub : apiOp.URLBuilder <;> cases (factoryResult env self apiOp urlParser).2 <;>
    cases (strategyResult self apiOp urlParser).2 <;>
    cases hsc : apiOp.Schema <;> cases apiOp.Schemas <;>
    simp_all [finishParse_fst, resolveSchema_eq] <;>
    split <;> rfl

/-- Witness of C5: a descriptor with every mergeable field populated keeps
them all against a strategy that proposes other values. -/
theorem Parse_keeps_populated_witness :
    (Parse plainEnv 0 populatedOp failingStrategy).1.Type_ = "nodes"
      ∧ (Parse plainEnv 0 populatedOp failingStrategy).1.Name = "n1"
      ∧ (Parse plainEnv 0 populatedOp failingStrategy).1.Link = "self"
      ∧ (Parse plainEnv 0 populatedOp failingStrategy).1.Action = "restart"
      ∧ (Parse plainEnv 0 populatedOp failingStrategy).1.URLPrefix = "/v1"
      ∧ (Parse plainEnv 0 populatedOp failingStrategy).1.Query = some []
      ∧ (Parse plainEnv 0 populatedOp failingStrategy).1.Schema = some ⟨"node"⟩
      ∧ (Parse plainEnv 0 populatedOp failingStrategy).1.URLBuilder = some ⟨7⟩ :=
  ⟨(Parse_keeps_populated plainEnv 0 populatedOp failingStrategy).1 (by decide),
   (Parse_keeps_populated plainEnv 0 populatedOp failingStrategy).2.1 (by decide),
   (Parse_keeps_populated plainEnv 0 populatedOp failingStrategy).2.2.1 (by decide),
   (Parse_keeps_populated plainEnv 0 populatedOp failingStrategy).2.2.2.1 (by decide),
   (Parse_keeps_populated plainEnv 0 populatedOp failingStrategy).2.2.2.2.1 (by decide),
   (Parse_keeps_populated plainEnv 0 populatedOp failingStrategy).2.2.2.2.2.1 (by decide),
   (Parse_keeps_populated plainEnv 0 populatedOp failingStrategy).2.2.2.2.2.2.1 (by decide),
   (Parse_keeps_populated plainEnv 0 populatedOp failingStrategy).2.2.2.2.2.2.2 (by decide)⟩

/-! ## The body extractor -/

theorem lookup_map_strings (k : String) :
    ∀ (m : Values),
      (m.map (fun kv => (kv.1, Interface.strings kv.2))).lookup k
        = (m.lookup k).map Interface.strings
  | [] => rfl
  | (key, vs) :: rest => by
    have ih := lookup_map_strings k rest
    cases hk : k == key <;> simp [List.lookup, hk, ih]

theorem Body_of_multipart (env : BodyEnv) (req : Request) (m : Values)
    (hm : (env.ParseMultipartForm req maxFormSize).MultipartForm = some m) :
    Body env req = (valuesToBody env m, none) := by
  unfold Body
  simp only [hm]

theorem Body_of_no_multipart (env : BodyEnv) (req : Request)
    (hm : (env.ParseMultipartForm req maxFormSize).MultipartForm = none) :
    Body env req =
      (if (env.ParseMultipartForm req maxFormSize).PostForm.isSome
          ∧ 0 < ((env.ParseMultipartForm req maxFormSize).PostForm.getD []).length then
        (valuesToBody env ((env.ParseMultipartForm req maxFormSize).Form.getD []), none)
      else env.ReadBody (env.ParseMultipartForm req maxFormSize)) := by
  unfold Body
  simp only [hm]

/-- C11: for every request whose multipart form has the value map `m` (in
particular a non-empty one), `Body` returns without error the object made from
the map that has exactly the keys of `m`, each with its list of string values;
the form-encoded values, the raw body and the raw-body reader play no part. -/
theorem Body_multipart (env : BodyEnv) (req : Request) (m : Values)
    (hm : (env.ParseMultipartForm req maxFormSize).MultipartForm = some m) :
    Body env req = (env.ToAPI (m.map (fun kv => (kv.1, Interface.strings kv.2))), none)
      ∧ (∀ k, (m.map (fun kv => (kv.1, Interface.strings kv.2))).lookup k
          = (m.lookup k).map Interface.strings)
      ∧ (∀ (env' : BodyEnv) (req' : Request), env'.ToAPI = env.ToAPI →
          (env'.ParseMultipartForm req' maxFormSize).MultipartForm = some m →
          Body env' req' = Body env req) := by
  refine ⟨Body_of_multipart env req m hm, fun k => lookup_map_strings k m, ?_⟩
  intro env' req' hto hm'
  rw [Body_of_multipart env req m hm, Body_of_multipart env' req' m hm']
  simp only [valuesToBody, hto]

/-- Witness of C11: the multipart fields `a = 1, 2` give the object
`a = 1, 2`, whatever the query, the posted values and the reader are. -/
theorem Body_multipart_witness :
    Body parsedBodyEnv multipartRequest = (⟨[("a", Interface.strings ["1", "2"])]⟩, none) :=
  (Body_multipart parsedBodyEnv multipartRequest [("a", ["1", "2"])] rfl).1

/-- Counterexample to C12 as stated: a request whose multipart form is present
with an empty value map gets the empty conversion without error, not the
answer of the raw-body reader. -/
theorem Body_empty_multipart_counterexample :
    emptyMultipartRequest.MultipartForm = some []
      ∧ Body parsedBodyEnv emptyMultipartRequest = (⟨[]⟩, none)
      ∧ Body parsedBodyEnv emptyMultipartRequest
          ≠ parsedBodyEnv.ReadBody emptyMultipartRequest := by
  decide

/-- C12 (amended): `Body` returns from the multipart step whenever a multipart
form is present after parsing, also when its value map is empty (it then
returns the empty conversion without error); it goes on to the form-encoded
step and then to the raw-body reader only when no multipart form is present. -/
theorem Body_multipart_gate (env : BodyEnv) (req : Request) :
    ((env.ParseMultipartForm req maxFormSize).MultipartForm = some [] →
        Body env req = (env.ToAPI [], none))
      ∧ (∀ m, (env.ParseMultipartForm req maxFormSize).MultipartForm = some m →
          Body env req = (valuesToBody env m, none))
      ∧ ((env.ParseMultipartForm req maxFormSize).MultipartForm = none →
          Body env req =
            (if (env.ParseMultipartForm req maxFormSize).PostForm.isSome
                ∧ 0 < ((env.ParseMultipartForm req maxFormSize).PostForm.getD []).length then
              (valuesToBody env ((env.ParseMultipartForm req maxFormSize).Form.getD []), none)
            else env.ReadBody (env.ParseMultipartForm req maxFormSize))) := by
  refine ⟨fun h => ?_, fun m h => Body_of_multipart env req m h,
    fun h => Body_of_no_multipart env req h⟩
  rw [Body_of_multipart env req [] h]
  rfl

/-- Witness of C12 (amended): the empty multipart form, and a request without
multipart form that reaches the raw-body reader. -/
theorem Body_multipart_gate_witness :
    Body parsedBodyEnv emptyMultipartRequest = (⟨[]⟩, none)
      ∧ Body parsedBodyEnv rawRequest
          = (⟨[("raw", Interface.other 0)]⟩, some ⟨"unreadable body"⟩) :=
  ⟨(Body_multipart_gate parsedBodyEnv emptyMultipartRequest).1 rfl,
   (Body_multipart_gate parsedBodyEnv rawRequest).2.2 rfl⟩

/-- C13 (the code at the failing input): a form-encoded POST of `a = 1` to a
URL with the query `q = 2` yields the keys `a` and `q`, since line 165 converts
`req.Form`; the posted values alone would give the key `a` only. -/
theorem Body_form_converts_Form :
    formRequest.PostForm = some [("a", ["1"])]
      ∧ Body parsedBodyEnv formRequest
          = (⟨[("a", Interface.strings ["1"]), ("q", Interface.strings ["2"])]⟩, none)
      ∧ Body parsedBodyEnv formRequest
          ≠ (valuesToBody parsedBodyEnv [("a", ["1"])], none) := by
  decide

/-- C14: for every request with no multipart form and absent or empty posted
form values, `Body` returns the pair of object and error that `ReadBody`
returns for that request, unchanged. -/
theorem Body_raw (env : BodyEnv) (req : Request)
    (hm : (env.ParseMultipartForm req maxFormSize).MultipartForm = none)
    (hp : (env.ParseMultipartForm req maxFormSize).PostForm = none
      ∨ (env.ParseMultipartForm req maxFormSize).PostForm = some []) :
    Body env req = env.ReadBody (env.ParseMultipartForm req maxFormSize) := by
  rw [Body_of_no_multipart env req hm]
  rcases hp with hp | hp <;> simp [hp]

/-- Witness of C14: the answer of the reader, error included, is returned. -/
theorem Body_raw_witness :
    Body parsedBodyEnv rawRequest
      = (⟨[("raw", Interface.other 0)]⟩, some ⟨"unreadable body"⟩) :=
  Body_raw parsedBodyEnv rawRequest rfl (Or.inr rfl)

/-! ## Schema resolution, method merge, context binding and error order -/

theorem Parse_of_strategy_error (env : Env) (self : Ptr) (apiOp : APIRequest)
    (urlParser : URLParser) (e : GoError)
    (hparse : (strategyResult self apiOp urlParser).2 = some e) :
    (Parse env self apiOp urlParser).1.Schema = apiOp.Schema
      ∧ (Parse env self apiOp urlParser).1.Type_
          = (if apiOp.Type_ = "" then (strategyResult self apiOp urlParser).1.Type_
             else apiOp.Type_) := by
  rw [Parse_eq]
  simp only [mergeParsedURL_eq, hparse]
  cases apiOp.URLBuilder <;> cases (factoryResult env self apiOp urlParser).2 <;>
    simp [finishParse]

theorem Parse_of_factory_error (env : Env) (self : Ptr) (apiOp : APIRequest)
    (urlParser : URLParser) (e : GoError)
    (hub : apiOp.URLBuilder = none)
    (hfail : (factoryResult env self apiOp urlParser).2 = some e) :
    (Parse env self apiOp urlParser).1.Schema = apiOp.Schema
      ∧ (Parse env self apiOp urlParser).1.Type_
          = (if apiOp.Type_ = "" then (strategyResult self apiOp urlParser).1.Type_
             else apiOp.Type_) := by
  rw [Parse_eq]
  simp [mergeParsedURL_eq, hub, hfail]

theorem Parse_snd (env : Env) (self : Ptr) (apiOp : APIRequest) (urlParser : URLParser) :
    (Parse env self apiOp urlParser).2 =
      (match (if apiOp.URLBuilder = none then (factoryResult env self apiOp urlParser).2
          else none) with
        | some e => some e
        | none =>
          match (strategyResult self apiOp urlParser).2 with
          | some e => some e
          | none => env.ValidateMethod (validatedOp env self apiOp urlParser)) := by
  rw [Parse_eq]
  unfold validatedOp
  cases hub : apiOp.URLBuilder <;> cases hf : (factoryResult env self apiOp urlParser).2 <;>
    cases hp : (strategyResult self apiOp urlParser).2 <;>
    simp [finishParse_snd]

theorem Parse_Method (env : Env) (self : Ptr) (apiOp : APIRequest) (urlParser : URLParser) :
    (Parse env self apiOp urlParser).1.Method =
      (if apiOp.Method ≠ "" then apiOp.Method
       else if parseMethod (strategyRequest self apiOp) ≠ "" then
         parseMethod (strategyRequest self apiOp)
       else (strategyResult self apiOp urlParser).1.Method) := by
  rw [Parse_eq]
  simp only [mergeParsedURL_eq]
  by_cases hm : apiOp.Method = "" <;>
    by_cases hp : parseMethod (strategyRequest self apiOp) = "" <;>
    by_cases hr : (strategyResult self apiOp urlParser).1.Method = "" <;>
    cases apiOp.URLBuilder <;> cases (factoryResult env self apiOp urlParser).2 <;>
    cases (strategyResult self apiOp urlParser).2 <;>
    simp [finishParse_fst, resolveSchema_eq, hm, hp, hr]

theorem Parse_Request (env : Env) (self : Ptr) (apiOp : APIRequest) (urlParser : URLParser) :
    (Parse env self apiOp urlParser).1.Request = some (strategyRequest self apiOp) := by
  rw [Parse_eq]
  simp only [mergeParsedURL_eq]
  cases apiOp.URLBuilder <;> cases (factoryResult env self apiOp urlParser).2 <;>
    cases (strategyResult self apiOp urlParser).2 <;>
    simp [finishParse_fst, resolveSchema_eq]

theorem GetAPIContext_strategyRequest (self : Ptr) (apiOp : APIRequest) :
    GetAPIContext (strategyRequest self apiOp).Context = some self := by
  unfold strategyRequest
  cases apiOp.Request <;> rfl

theorem Parse_congr_strategy (env : Env) (self : Ptr) (apiOp : APIRequest)
    (urlParser urlParser' : URLParser)
    (h : strategyResult self apiOp urlParser' = strategyResult self apiOp urlParser) :
    Parse env self apiOp urlParser' = Parse env self apiOp urlParser := by
  have hf : factoryResult env self apiOp urlParser' = factoryResult env self apiOp urlParser := by
    unfold factoryResult
    rw [h]
  rw [Parse_eq, Parse_eq, h, hf]

theorem Parse_congr_env (env env' : Env) (self : Ptr) (apiOp : APIRequest)
    (urlParser : URLParser)
    (hc : env'.caseTable = env.caseTable) (hb : env'.IsBrowser = env.IsBrowser)
    (hv : env'.ValidateMethod = env.ValidateMethod)
    (hf : apiOp.URLBuilder = none →
      factoryResult env' self apiOp urlParser = factoryResult env self apiOp urlParser) :
    Parse env' self apiOp urlParser = Parse env self apiOp urlParser := by
  obtain ⟨c, b, u, v⟩ := env
  obtain ⟨c', b', u', v'⟩ := env'
  simp only at hc hb hv
  subst hc hb hv
  rw [Parse_eq, Parse_eq]
  cases hub : apiOp.URLBuilder with
  | some ub => rfl
  | none =>
    simp only
    rw [hf hub]
    rfl

theorem Parse_validator_unused (env : Env) (self : Ptr) (apiOp : APIRequest)
    (urlParser : URLParser) (validate : APIRequest → Option GoError)
    (h : (strategyResult self apiOp urlParser).2 ≠ none
      ∨ (apiOp.URLBuilder = none ∧ (factoryResult env self apiOp urlParser).2 ≠ none)) :
    Parse { env with ValidateMethod := validate } self apiOp urlParser
      = Parse env self apiOp urlParser := by
  have hf : factoryResult { env with ValidateMethod := validate } self apiOp urlParser
      = factoryResult env self apiOp urlParser := rfl
  have hr : ∀ req, parseResponseFormat { env with ValidateMethod := validate } req
      = parseResponseFormat env req := fun _ => rfl
  rw [Parse_eq, Parse_eq, hf]
  simp only [hr]
  cases hub : apiOp.URLBuilder <;> cases hfe : (factoryResult env self apiOp urlParser).2 <;>
    cases hp : (strategyResult self apiOp urlParser).2 <;>
    simp_all [finishParse]

/-- C15: when `Parse` reaches schema resolution (no link-builder error and
no URL-parse error), the schema becomes `Schemas.Schema(Type)`, with the type
after merging, exactly when it was unset on entry and a registry is present,
and is otherwise unchanged (it stays nil without registry); the type becomes
the identifier of the resulting schema when that schema is not nil and the
merged type is empty, and is the merged type otherwise. -/
theorem Parse_schema_resolution (env : Env) (self : Ptr) (apiOp : APIRequest)
    (urlParser : URLParser)
    (hparse : (strategyResult self apiOp urlParser).2 = none)
    (hbuild : apiOp.URLBuilder = none → (factoryResult env self apiOp urlParser).2 = none) :
    (Parse env self apiOp urlParser).1.Schema =
        (match apiOp.Schema, apiOp.Schemas with
         | none, some schemas =>
           schemas.Schema
             (if apiOp.Type_ = "" then (strategyResult self apiOp urlParser).1.Type_
              else apiOp.Type_)
         | _, _ => apiOp.Schema)
      ∧ (apiOp.Schemas = none → (Parse env self apiOp urlParser).1.Schema = apiOp.Schema)
      ∧ (apiOp.Schema ≠ none → (Parse env self apiOp urlParser).1.Schema = apiOp.Schema)
      ∧ (Parse env self apiOp urlParser).1.Type_ =
          (match (Parse env self apiOp urlParser).1.Schema with
           | some schema =>
             if (if apiOp.Type_ = "" then (strategyResult self apiOp urlParser).1.Type_
                 else apiOp.Type_) = "" then schema.ID
             else (if apiOp.Type_ = "" then (strategyResult self apiOp urlParser).1.Type_
                   else apiOp.Type_)
           | none =>
             (if apiOp.Type_ = "" then (strategyResult self apiOp urlParser).1.Type_
              else apiOp.Type_)) := by
  rw [Parse_eq]
  simp only [mergeParsedURL_eq, hparse]
  cases hub : apiOp.URLBuilder with
  | none =>
    simp only [hbuild hub, finishParse_fst, resolveSchema_eq, Option.isSome_none,
      Bool.false_eq_true, if_false]
    cases hsc : apiOp.Schema <;> cases hss : apiOp.Schemas <;> simp
  | some ub =>
    simp only [finishParse_fst, resolveSchema_eq, Option.isSome_none,
      Bool.false_eq_true, if_false]
    cases hsc : apiOp.Schema <;> cases hss : apiOp.Schemas <;> simp

/-- Witness of C15: with a registry and no type, the schema is looked up and
the type falls back to its identifier. -/
theorem Parse_schema_resolution_witness :
    (Parse plainEnv 0 { Schemas := some podSchemas } prefixStrategy).1.Schema = some ⟨"pod"⟩
      ∧ (Parse plainEnv 0 { Schemas := some podSchemas } prefixStrategy).1.Type_ = "pod" :=
  ⟨(Parse_schema_resolution plainEnv 0 { Schemas := some podSchemas } prefixStrategy rfl
      (fun _ => rfl)).1,
   (Parse_schema_resolution plainEnv 0 { Schemas := some podSchemas } prefixStrategy rfl
      (fun _ => rfl)).2.2.2⟩

/-- C16: after `Parse` the method of the descriptor is the value of the caller
when that is not empty, otherwise `parseMethod` of the request when that is not
empty, otherwise the method of the result of the URL-parsing strategy; for a
request with a transport method or a `_method` parameter the method of the
result is never used. -/
theorem Parse_Method_resolution (env : Env) (self : Ptr) (apiOp : APIRequest)
    (urlParser : URLParser) :
    (Parse env self apiOp urlParser).1.Method =
        (if apiOp.Method ≠ "" then apiOp.Method
         else if parseMethod (strategyRequest self apiOp) ≠ "" then
           parseMethod (strategyRequest self apiOp)
         else (strategyResult self apiOp urlParser).1.Method)
      ∧ ((strategyRequest self apiOp).Method ≠ ""
            ∨ (strategyRequest self apiOp).URLQuery.Get "_method" ≠ "" →
          (Parse env self apiOp urlParser).1.Method =
            (if apiOp.Method ≠ "" then apiOp.Method
             else parseMethod (strategyRequest self apiOp))) := by
  refine ⟨Parse_Method env self apiOp urlParser, fun h => ?_⟩
  have hp : parseMethod (strategyRequest self apiOp) ≠ "" := by
    unfold parseMethod
    by_cases hq : (strategyRequest self apiOp).URLQuery.Get "_method" = ""
    · simp only [hq, if_true]
      rcases h with h | h
      · exact h
      · exact absurd hq h
    · simp only [hq, if_false]
      exact hq
  rw [Parse_Method, if_pos hp]

/-- Witness of C16: `_method=DELETE` on a GET request wins over the method GET
that the strategy proposes. -/
theorem Parse_Method_resolution_witness :
    (Parse plainEnv 0
        { Request := some { Method := "GET", URLQuery := [("_method", ["DELETE"])] } }
        failingStrategy).1.Method = "DELETE" :=
  ((Parse_Method_resolution plainEnv 0
      { Request := some { Method := "GET", URLQuery := [("_method", ["DELETE"])] } }
      failingStrategy).2 (Or.inl (by decide))).trans (by decide)

/-- C17: after `Parse` the request of the descriptor carries a context in
which `GetAPIContext` finds the descriptor again, and the URL-parsing strategy
is only ever applied to a request that carries this binding. -/
theorem Parse_binds_descriptor (env : Env) (self : Ptr) (apiOp : APIRequest)
    (urlParser : URLParser) :
    (∃ req, (Parse env self apiOp urlParser).1.Request = some req
        ∧ GetAPIContext req.Context = some self)
      ∧ (Parse env self apiOp urlParser).1.Request = some (strategyRequest self apiOp)
      ∧ (∀ urlParser' : URLParser,
          (∀ rw req schemas, GetAPIContext req.Context = some self →
            urlParser' rw req schemas = urlParser rw req schemas) →
          Parse env self apiOp urlParser' = Parse env self apiOp urlParser) := by
  refine ⟨⟨strategyRequest self apiOp, Parse_Request env self apiOp urlParser,
    GetAPIContext_strategyRequest self apiOp⟩, Parse_Request env self apiOp urlParser, ?_⟩
  intro urlParser' h
  apply Parse_congr_strategy
  unfold strategyResult
  exact h _ _ _ (GetAPIContext_strategyRequest self apiOp)

/-- Witness of C17: the descriptor at address 5 is found again in the context
of its request after `Parse`. -/
theorem Parse_binds_descriptor_witness :
    ∃ req, (Parse plainEnv 5 {} emptyStrategy).1.Request = some req
      ∧ GetAPIContext req.Context = some 5 :=
  (Parse_binds_descriptor plainEnv 5 {} emptyStrategy).1

/-- C18: for a descriptor that carries a request, `Parse` returns nil exactly
when link-builder construction succeeds (or a link-builder is attached), the
URL-parsing strategy returns no error and `ValidateMethod` returns no error;
otherwise it returns the first failure in the order link-builder error,
URL-parse error, method-validation error. -/
theorem Parse_error_order (env : Env) (self : Ptr) (apiOp : APIRequest)
    (urlParser : URLParser) (_hreq : apiOp.Request ≠ none) :
    ((Parse env self apiOp urlParser).2 = none ↔
        (apiOp.URLBuilder ≠ none ∨ (factoryResult env self apiOp urlParser).2 = none)
          ∧ (strategyResult self apiOp urlParser).2 = none
          ∧ env.ValidateMethod (validatedOp env self apiOp urlParser) = none)
      ∧ (Parse env self apiOp urlParser).2 =
          (match (if apiOp.URLBuilder = none then (factoryResult env self apiOp urlParser).2
              else none) with
            | some e => some e
            | none =>
              match (strategyResult self apiOp urlParser).2 with
              | some e => some e
              | none => env.ValidateMethod (validatedOp env self apiOp urlParser)) := by
  refine ⟨?_, Parse_snd env self apiOp urlParser⟩
  rw [Parse_snd]
  cases hub : apiOp.URLBuilder <;> cases hf : (factoryResult env self apiOp urlParser).2 <;>
    cases hp : (strategyResult self apiOp urlParser).2 <;> simp

/-- Witness of C18: with a request, a working factory and a working strategy
the error of the rejecting validator is returned, and the error of a failing
strategy comes before it. -/
theorem Parse_error_order_witness :
    (Parse rejectingEnv 0 { Request := some { Method := "GET" } } prefixStrategy).2
        = some ⟨"method not allowed"⟩
      ∧ (Parse rejectingEnv 0 { Request := some { Method := "GET" } } failingStrategy).2
        = some ⟨"url parse failed"⟩ :=
  ⟨((Parse_error_order rejectingEnv 0 { Request := some { Method := "GET" } } prefixStrategy
      (by decide)).2).trans rfl,
   ((Parse_error_order rejectingEnv 0 { Request := some { Method := "GET" } } failingStrategy
      (by decide)).2).trans rfl⟩

theorem Parse_URLPrefix (env : Env) (self : Ptr) (apiOp : APIRequest)
    (urlParser : URLParser) :
    (Parse env self apiOp urlParser).1.URLPrefix
      = resolvedPrefix apiOp (strategyResult self apiOp urlParser).1 := by
  rw [Parse_eq]
  unfold resolvedPrefix
  simp only [mergeParsedURL_eq]
  cases apiOp.URLBuilder <;> cases (factoryResult env self apiOp urlParser).2 <;>
    cases (strategyResult self apiOp urlParser).2 <;>
    simp [finishParse_fst, resolveSchema_eq]

theorem Parse_URLBuilder (env : Env) (self : Ptr) (apiOp : APIRequest)
    (urlParser : URLParser) :
    (Parse env self apiOp urlParser).1.URLBuilder
      = (match apiOp.URLBuilder with
         | some b => some b
         | none => (factoryResult env self apiOp urlParser).1) := by
  rw [Parse_eq]
  simp only [mergeParsedURL_eq]
  cases hub : apiOp.URLBuilder <;> cases (factoryResult env self apiOp urlParser).2 <;>
    cases (strategyResult self apiOp urlParser).2 <;>
    simp [finishParse_fst, resolveSchema_eq, hub]

/-- C19: without link-builder on entry, the factory is asked with the request
of the descriptor, the registry and the resolved prefix (the URL prefix of the
caller when not empty, otherwise the prefix of the result of the strategy,
also when the strategy failed), and `Parse` depends on the factory through
that one answer only; with a link-builder attached the factory is not asked,
whatever it would answer. -/
theorem Parse_factory_call (env : Env) (self : Ptr) (apiOp : APIRequest)
    (urlParser : URLParser) :
    (apiOp.URLBuilder = none →
        (Parse env self apiOp urlParser).1.URLPrefix
            = (if apiOp.URLPrefix ≠ "" then apiOp.URLPrefix
               else (strategyResult self apiOp urlParser).1.Prefix)
          ∧ (Parse env self apiOp urlParser).1.URLBuilder
            = (env.urlbuilderNew (strategyRequest self apiOp)
                (if apiOp.URLPrefix ≠ "" then apiOp.URLPrefix
                 else (strategyResult self apiOp urlParser).1.Prefix) apiOp.Schemas).1
          ∧ (∀ factory : Request → String → Option Schemas → Option URLBuilder × Option GoError,
              factory (strategyRequest self apiOp)
                  (if apiOp.URLPrefix ≠ "" then apiOp.URLPrefix
                   else (strategyResult self apiOp urlParser).1.Prefix) apiOp.Schemas
                = env.urlbuilderNew (strategyRequest self apiOp)
                  (if apiOp.URLPrefix ≠ "" then apiOp.URLPrefix
                   else (strategyResult self apiOp urlParser).1.Prefix) apiOp.Schemas →
              Parse { env with urlbuilderNew := factory } self apiOp urlParser
                = Parse env self apiOp urlParser))
      ∧ (apiOp.URLBuilder ≠ none →
          (Parse env self apiOp urlParser).1.URLBuilder = apiOp.URLBuilder
            ∧ (∀ factory :
                Request → String → Option Schemas → Option URLBuilder × Option GoError,
              Parse { env with urlbuilderNew := factory } self apiOp urlParser
                = Parse env self apiOp urlParser)) := by
  have hpre : resolvedPrefix apiOp (strategyResult self apiOp urlParser).1
      = (if apiOp.URLPrefix ≠ "" then apiOp.URLPrefix
         else (strategyResult self apiOp urlParser).1.Prefix) := by
    unfold resolvedPrefix
    by_cases h : apiOp.URLPrefix = "" <;> simp [h]
  constructor
  · intro hub
    refine ⟨?_, ?_, ?_⟩
    · rw [Parse_URLPrefix, hpre]
    · rw [Parse_URLBuilder, hub, ← hpre]
      rfl
    · intro factory hsame
      refine Parse_congr_env env { env with urlbuilderNew := factory } self apiOp urlParser
        rfl rfl rfl (fun _ => ?_)
      unfold factoryResult
      rw [hpre]
      exact hsame
  · intro hub
    refine ⟨?_, ?_⟩
    · rw [Parse_URLBuilder]
      cases h : apiOp.URLBuilder with
      | none => exact absurd h hub
      | some b => rfl
    · intro factory
      exact Parse_congr_env env { env with urlbuilderNew := factory } self apiOp urlParser
        rfl rfl rfl (fun h => absurd h hub)

/-- Witness of C19: the factory that knows the prefix `/v3` only is asked with
the prefix of the strategy when the caller set none, also when the strategy
fails, and is not asked when a link-builder is attached. -/
theorem Parse_factory_call_witness :
    (Parse prefixFactoryEnv 0 {} failingStrategy).1.URLBuilder = some ⟨3⟩
      ∧ (Parse prefixFactoryEnv 0 populatedOp prefixStrategy).1.URLBuilder = some ⟨7⟩ :=
  ⟨(((Parse_factory_call prefixFactoryEnv 0 {} failingStrategy).1 rfl).2.1).trans rfl,
   ((Parse_factory_call prefixFactoryEnv 0 populatedOp prefixStrategy).2 (by decide)).1⟩

/-- C20: when the URL-parsing strategy returns an error, or link-builder
construction fails, `Parse` resolves no schema and validates no method: the
schema is the one on entry, the type is the type of the caller or of the
parsed result, and the answer of `ValidateMethod` has no influence on the
outcome. -/
theorem Parse_error_skips_resolution (env : Env) (self : Ptr) (apiOp : APIRequest)
    (urlParser : URLParser)
    (h : (strategyResult self apiOp urlParser).2 ≠ none
      ∨ (apiOp.URLBuilder = none ∧ (factoryResult env self apiOp urlParser).2 ≠ none)) :
    (Parse env self apiOp urlParser).1.Schema = apiOp.Schema
      ∧ (Parse env self apiOp urlParser).1.Type_
          = (if apiOp.Type_ = "" then (strategyResult self apiOp urlParser).1.Type_
             else apiOp.Type_)
      ∧ (∀ validate : APIRequest → Option GoError,
          Parse { env with ValidateMethod := validate } self apiOp urlParser
            = Parse env self apiOp urlParser) := by
  refine ⟨?_, ?_, fun validate => Parse_validator_unused env self apiOp urlParser validate h⟩
  · rcases h with h | ⟨hub, h⟩
    · obtain ⟨e, he⟩ := Option.ne_none_iff_exists'.1 h
      exact (Parse_of_strategy_error env self apiOp urlParser e he).1
    · obtain ⟨e, he⟩ := Option.ne_none_iff_exists'.1 h
      exact (Parse_of_factory_error env self apiOp urlParser e hub he).1
  · rcases h with h | ⟨hub, h⟩
    · obtain ⟨e, he⟩ := Option.ne_none_iff_exists'.1 h
      exact (Parse_of_strategy_error env self apiOp urlParser e he).2
    · obtain ⟨e, he⟩ := Option.ne_none_iff_exists'.1 h
      exact (Parse_of_factory_error env self apiOp urlParser e hub he).2

/-- Witness of C20: with a registry and a failing strategy the schema stays
nil, the type is the type of the parsed result and the rejecting validator is
not heard. -/
theorem Parse_error_skips_resolution_witness :
    (Parse rejectingEnv 0 { Schemas := some podSchemas } failingStrategy).1.Schema = none
      ∧ (Parse rejectingEnv 0 { Schemas := some podSchemas } failingStrategy).1.Type_ = "pods"
      ∧ (Parse rejectingEnv 0 { Schemas := some podSchemas } failingStrategy).2
          = some ⟨"url parse failed"⟩ :=
  ⟨(Parse_error_skips_resolution rejectingEnv 0 { Schemas := some podSchemas } failingStrategy
      (Or.inl (by decide))).1,
   (Parse_error_skips_resolution rejectingEnv 0 { Schemas := some podSchemas } failingStrategy
      (Or.inl (by decide))).2.1,
   rfl⟩

end Norman
